import Mathlib

/-!
Verification development for the `ufw-log-viewer` repository.

The program is shallowly embedded: Rust string manipulation is modelled on
`List Char` (with `String` as the boundary type), `Option`-returning Rust
functions become `Option`-returning Lean functions, and the interactive
application state (`App` in `src/main.rs`) becomes an explicit record with
pure state-transition functions.
-/

namespace Ufw

/-! ## List-of-characters string primitives (models of Rust `str` methods) -/

/-- Model of Rust `char::is_whitespace` restricted to the whitespace that
occurs in log files (space, tab, CR, LF). -/
def isWs (c : Char) : Bool := c.isWhitespace

/-- Model of Rust `str::trim`: drop whitespace from both ends. -/
def trimL (l : List Char) : List Char :=
  ((l.dropWhile isWs).reverse.dropWhile isWs).reverse

/-- `String`-level wrapper for `trimL`, the model of Rust `str::trim`. -/
def rustTrim (s : String) : String := ⟨trimL s.data⟩

/-- Model of Rust `str::split(c)`: split at every occurrence of the
character, keeping empty segments. -/
def splitOnChar (c : Char) : List Char → List (List Char)
  | [] => [[]]
  | x :: xs =>
    match splitOnChar c xs with
    | [] => if x = c then [[], []] else [[x]]
    | h :: t => if x = c then [] :: h :: t else (x :: h) :: t

/-- Split at every character satisfying `p`, keeping empty segments. -/
def splitOnPred (p : Char → Bool) : List Char → List (List Char)
  | [] => [[]]
  | x :: xs =>
    match splitOnPred p xs with
    | [] => if p x then [[], []] else [[x]]
    | h :: t => if p x then [] :: h :: t else (x :: h) :: t

/-- Model of Rust `str::split_whitespace`: whitespace-delimited tokens,
empty tokens dropped. -/
def splitWs (l : List Char) : List (List Char) :=
  (splitOnPred isWs l).filter (fun t => !t.isEmpty)

/-- Model of Rust `str::contains(needle)`: substring containment. -/
def containsSub (needle : List Char) : List Char → Bool
  | [] => needle.isEmpty
  | x :: xs => needle.isPrefixOf (x :: xs) || containsSub needle xs

/-- Model of Rust `str::find(needle)`: index of the first occurrence. -/
def findSubIdx (needle : List Char) : List Char → Option Nat
  | [] => if needle.isEmpty then some 0 else none
  | x :: xs =>
    if needle.isPrefixOf (x :: xs) then some 0
    else (findSubIdx needle xs).map (· + 1)

/-- Everything before the first occurrence of `needle` (the whole list when
`needle` does not occur): model of Rust `str::split(sep).next()` for a
non-empty separator. -/
def beforeFirst (needle l : List Char) : List Char :=
  match findSubIdx needle l with
  | none => l
  | some i => l.take i

/-- Model of Rust `str::split_once(c)`. -/
def splitOnceChar (c : Char) (l : List Char) : Option (List Char × List Char) :=
  if c ∈ l then some (l.takeWhile (· ≠ c), (l.dropWhile (· ≠ c)).tail) else none

/-- Model of Rust `char::to_ascii_lowercase`. -/
def asciiLowerChar (c : Char) : Char :=
  if 'A' ≤ c ∧ c ≤ 'Z' then Char.ofNat (c.toNat + 32) else c

/-- Model of Rust `char::to_ascii_uppercase`. -/
def asciiUpperChar (c : Char) : Char :=
  if 'a' ≤ c ∧ c ≤ 'z' then Char.ofNat (c.toNat - 32) else c

/-- Model of Rust `str::to_ascii_lowercase`. -/
def asciiLower (s : String) : String := ⟨s.data.map asciiLowerChar⟩

/-- Model of Rust `str::to_ascii_uppercase`. -/
def asciiUpper (s : String) : String := ⟨s.data.map asciiUpperChar⟩

/-- Model of Rust `str::starts_with(pre)`. -/
def startsWithL (s pre : String) : Bool := pre.data.isPrefixOf s.data

/-- Model of Rust `str::contains` at the `String` level. -/
def containsStr (hay needle : String) : Bool := containsSub needle.data hay.data

/-- Digit run to value; `none` when empty or a non-digit is present. -/
def digitsVal (l : List Char) : Option Nat :=
  if !l.isEmpty && l.all Char.isDigit then
    some (l.foldl (fun n c => n * 10 + (c.toNat - 48)) 0)
  else none

/-- Model of Rust `uN::from_str` (unsigned integer parsing): an optional
leading `+`, then one or more decimal digits, value at most `max`. -/
def parseUInt (max : Nat) (s : String) : Option Nat :=
  let l := match s.data with
    | '+' :: rest => rest
    | l => l
  match digitsVal l with
  | some n => if n ≤ max then some n else none
  | none => none

/-! ## Data model (`LogEntry` in `src/main.rs`) -/

/-- Embeds the `LogEntry` struct of `src/main.rs` (ports as `Nat` in place
of `u16`; the parser only ever stores values at most `65535`). -/
structure LogEntry where
  timestamp : String
  action : String
  in_iface : Option String
  out_iface : Option String
  src_ip : Option String
  dst_ip : Option String
  src_port : Option Nat
  dst_port : Option Nat
  proto : Option String
  service : Option String
  raw : String
deriving DecidableEq, Repr

/-- Embeds `LogEntry::direction` of `src/main.rs`. -/
def LogEntry.direction (e : LogEntry) : String :=
  let has_in : Bool := match e.in_iface with
    | some v => !v.data.isEmpty
    | none => false
  let has_out : Bool := match e.out_iface with
    | some v => !v.data.isEmpty
    | none => false
  match has_in, has_out with
  | true, false => "IN"
  | false, true => "OUT"
  | true, true => "FWD"
  | false, false => "?"

/-! ## Record parser (`src/parser.rs`) -/

/-- Embeds `parse_action` of `src/parser.rs`: the text between `"[UFW "`
and the next `']'`, trimmed. -/
def parse_action (line : String) : Option String :=
  match findSubIdx "[UFW ".data line.data with
  | none => none
  | some i =>
    let rest := line.data.drop (i + 5)
    match rest.findIdx? (· == ']') with
    | none => none
    | some j => some ⟨trimL (rest.take j)⟩

/-- Character predicate of the `trim_matches` call in `parse_field`. -/
def isCommaOrBracket (c : Char) : Bool := c == ',' || c == ']'

/-- Model of Rust `str::trim_matches(|c| c == ',' || c == ']')`. -/
def trimCB (l : List Char) : List Char :=
  ((l.dropWhile isCommaOrBracket).reverse.dropWhile isCommaOrBracket).reverse

/-- Embeds `parse_field` of `src/parser.rs`: scan whitespace-delimited
tokens, return the processed value of the first `KEY=VALUE` token whose key
equals `name`. -/
def parse_field (line name : String) : Option String :=
  (splitWs line.data).findSome? fun tok =>
    match splitOnceChar '=' tok with
    | some (k, v) => if k = name.data then some (⟨trimCB v⟩ : String) else none
    | none => none

/-- The `" kernel:"` separator used for the timestamp. -/
def kernelSep : List Char := " kernel:".data

/-- Embeds `parse_ufw_line` of `src/parser.rs`, parameterised by the
external port→service lookup (`service_from_port` of `src/services.rs`,
an out-of-scope collaborator per the specification). -/
def parse_ufw_line (svc : Nat → Option String) (line : String) : Option LogEntry :=
  match parse_action line with
  | none => none
  | some action =>
    let timestamp : String := ⟨trimL (beforeFirst kernelSep line.data)⟩
    let in_iface := parse_field line "IN"
    let out_iface := parse_field line "OUT"
    let src_ip := parse_field line "SRC"
    let dst_ip := parse_field line "DST"
    let proto := (parse_field line "PROTO").map asciiUpper
    let src_port := (parse_field line "SPT").bind (parseUInt 65535)
    let dst_port := (parse_field line "DPT").bind (parseUInt 65535)
    let service := match dst_port.bind svc with
      | some n => some n
      | none => src_port.bind svc
    some {
      timestamp := timestamp
      action := action
      in_iface := in_iface
      out_iface := out_iface
      src_ip := src_ip
      dst_ip := dst_ip
      src_port := src_port
      dst_port := dst_port
      proto := proto
      service := service
      raw := line
    }

/-- A trivial instantiation of the external port→service lookup, used for
concrete evaluations. -/
def svc0 : Nat → Option String := fun _ => none

/-! ## Model of `std::net::IpAddr` parsing (library call made by
`is_wan_ip` in `src/net.rs`) -/

/-- Parsed IP address: four octets for v4, eight 16-bit groups for v6. -/
inductive IpAddr where
  | v4 (a b c d : Nat)
  | v6 (gs : List Nat)
deriving DecidableEq, Repr

/-- One octet of the std IPv4 grammar: decimal digits only, no sign, no
leading zero (except `"0"` itself), value at most 255. -/
def pOct (l : List Char) : Option Nat :=
  if !l.isEmpty && l.all Char.isDigit && (l.head? != some '0' || l == ['0']) then
    match digitsVal l with
    | some n => if n ≤ 255 then some n else none
    | none => none
  else none

/-- Model of `Ipv4Addr::from_str`: exactly four dot-separated octets. -/
def parseStdIpv4 (s : String) : Option (Nat × Nat × Nat × Nat) :=
  match splitOnChar '.' s.data with
  | [a, b, c, d] =>
    match pOct a, pOct b, pOct c, pOct d with
    | some w, some x, some y, some z => some (w, x, y, z)
    | _, _, _, _ => none
  | _ => none

/-- Value of a hexadecimal digit. -/
def hexVal (c : Char) : Option Nat :=
  if c.isDigit then some (c.toNat - 48)
  else if 'a' ≤ c ∧ c ≤ 'f' then some (c.toNat - 87)
  else if 'A' ≤ c ∧ c ≤ 'F' then some (c.toNat - 55)
  else none

/-- One 16-bit group of the IPv6 grammar: one to four hex digits. -/
def parseH16 (l : List Char) : Option Nat :=
  if !l.isEmpty && l.length ≤ 4 then
    (l.mapM hexVal).map (List.foldl (fun n d => n * 16 + d) 0)
  else none

/-- Parse a colon-separated group sequence; when `allowV4` is set the last
element may be an embedded IPv4 address contributing two groups. -/
def parseGroupSeq (allowV4 : Bool) (parts : List (List Char)) : Option (List Nat) :=
  match parts with
  | [] => some []
  | [last] =>
    match parseH16 last with
    | some g => some [g]
    | none =>
      if allowV4 then
        match parseStdIpv4 ⟨last⟩ with
        | some (a, b, c, d) => some [a * 256 + b, c * 256 + d]
        | none => none
      else none
  | p :: rest =>
    match parseH16 p, parseGroupSeq allowV4 rest with
    | some g, some gs => some (g :: gs)
    | _, _ => none

/-- Model of `Ipv6Addr::from_str`: hexadecimal groups separated by `:`,
at most one `::` abbreviation, optional embedded IPv4 tail. -/
def parseStdIpv6 (s : String) : Option (List Nat) :=
  let l := s.data
  match findSubIdx [':', ':'] l with
  | some i =>
    let head := l.take i
    let tail := l.drop (i + 2)
    if containsSub [':', ':'] tail then none
    else
      let headGroups := if head.isEmpty then some [] else parseGroupSeq false (splitOnChar ':' head)
      let tailGroups := if tail.isEmpty then some [] else parseGroupSeq true (splitOnChar ':' tail)
      match headGroups, tailGroups with
      | some hs, some ts =>
        if hs.length + ts.length ≤ 7 then
          some (hs ++ List.replicate (8 - hs.length - ts.length) 0 ++ ts)
        else none
      | _, _ => none
  | none =>
    match parseGroupSeq true (splitOnChar ':' l) with
    | some gs => if gs.length = 8 then some gs else none
    | none => none

/-- Model of `IpAddr::from_str`: try IPv4 first, then IPv6. -/
def parseIpAddr (s : String) : Option IpAddr :=
  match parseStdIpv4 s with
  | some (a, b, c, d) => some (.v4 a b c d)
  | none => (parseStdIpv6 s).map .v6

/-- Model of `IpAddr::is_unspecified`. -/
def IpAddr.isUnspecified : IpAddr → Bool
  | .v4 a b c d => a == 0 && b == 0 && c == 0 && d == 0
  | .v6 gs => gs.all (· == 0)

/-- Model of `IpAddr::is_multicast` (`224.0.0.0/4` for v4, `ff00::/8` for
v6). -/
def IpAddr.isMulticast : IpAddr → Bool
  | .v4 a _ _ _ => decide (224 ≤ a ∧ a ≤ 239)
  | .v6 gs =>
    match gs.head? with
    | some g => decide (g / 256 = 255)
    | none => false

/-! ## Address/interface classifier (`src/net.rs`) -/

/-- The IPv6 local-prefix tests of `is_local_ip` (`::1`, `fe80:`, `fc`,
`fd`, checked on the ASCII-lowercased trimmed input). -/
def v6LocalHeuristic (t : String) : Bool :=
  let lower := asciiLower t
  lower == "::1" || startsWithL lower "fe80:" || startsWithL lower "fc" ||
    startsWithL lower "fd"

/-- The manual four-octet scan of `is_local_ip`: exactly four dot-separated
components each accepted by Rust `u8` parsing (which allows a leading `+`
and leading zeros). -/
def manualOctets (t : String) : Option (Nat × Nat × Nat × Nat) :=
  match splitOnChar '.' t.data with
  | [a, b, c, d] =>
    match parseUInt 255 ⟨a⟩, parseUInt 255 ⟨b⟩, parseUInt 255 ⟨c⟩, parseUInt 255 ⟨d⟩ with
    | some w, some x, some y, some z => some (w, x, y, z)
    | _, _, _, _ => none
  | _ => none

/-- The private/loopback/link-local range match of `is_local_ip`. -/
def localV4Range (a b : Nat) : Bool :=
  a == 10 || a == 127 || (a == 192 && b == 168) ||
    (a == 172 && decide (16 ≤ b ∧ b ≤ 31)) || (a == 169 && b == 254)

/-- Body of `is_local_ip` after the trim (`src/net.rs` lines 70-106). -/
def localCore (t : String) : Bool :=
  if t.data.isEmpty then false
  else if v6LocalHeuristic t then true
  else
    match manualOctets t with
    | some (a, b, _, _) => localV4Range a b
    | none => false

/-- Embeds `is_local_ip` of `src/net.rs`. -/
def is_local_ip (ip : Option String) : Bool :=
  match ip with
  | none => false
  | some s => localCore (rustTrim s)

/-- Embeds `is_wan_ip` of `src/net.rs`: parses via `std::net::IpAddr`,
rejects unspecified/multicast, and negates `is_local_ip` on the trimmed
string. -/
def is_wan_ip (ip : Option String) : Bool :=
  match ip with
  | none => false
  | some s =>
    let t := rustTrim s
    if t.data.isEmpty then false
    else
      match parseIpAddr t with
      | none => false
      | some a =>
        if a.isUnspecified || a.isMulticast then false
        else !is_local_ip (some t)

/-- Embeds `is_local_src_ip` of `src/net.rs`. -/
def is_local_src_ip (src_ip : Option String) : Bool := is_local_ip src_ip

/-- Embeds `is_wan_src_ip` of `src/net.rs`. -/
def is_wan_src_ip (src_ip : Option String) : Bool := is_wan_ip src_ip

/-- Embeds the `FlowFilter` enum of `src/main.rs`. -/
inductive FlowFilter where
  | All
  | LocalToLocal
  | LocalToExternal
deriving DecidableEq, Repr

/-- Embeds `FlowFilter::next` of `src/main.rs`. -/
def FlowFilter.next : FlowFilter → FlowFilter
  | .All => .LocalToLocal
  | .LocalToLocal => .LocalToExternal
  | .LocalToExternal => .All

/-- Embeds the `DirectionFilter` enum of `src/main.rs`. -/
inductive DirectionFilter where
  | Both
  | In
  | Out
  | Forwarded
deriving DecidableEq, Repr

/-- Embeds `DirectionFilter::next` of `src/main.rs`. -/
def DirectionFilter.next : DirectionFilter → DirectionFilter
  | .Both => .In
  | .In => .Out
  | .Out => .Forwarded
  | .Forwarded => .Both

/-- Embeds `matches_flow_filter` of `src/net.rs`. -/
def matches_flow_filter (flow : FlowFilter) (e : LogEntry) : Bool :=
  let src_local := is_local_ip e.src_ip
  let dst_local := is_local_ip e.dst_ip
  let dst_wan := is_wan_ip e.dst_ip
  match flow with
  | .All => true
  | .LocalToLocal => src_local && dst_local
  | .LocalToExternal => src_local && dst_wan

/-- Embeds `matches_direction_filter` of `src/net.rs`. -/
def matches_direction_filter (d : DirectionFilter) (e : LogEntry) : Bool :=
  match d with
  | .Both => true
  | .In => e.direction == "IN"
  | .Out => e.direction == "OUT"
  | .Forwarded => e.direction == "FWD"

/-- Embeds `is_wan_candidate_interface` of `src/net.rs`. -/
def is_wan_candidate_interface (name : String) : Bool :=
  let lower := asciiLower name
  if lower == "lo" || startsWithL lower "docker" || startsWithL lower "veth" ||
      startsWithL lower "virbr" || startsWithL lower "br-" ||
      startsWithL lower "tailscale" || startsWithL lower "tun" ||
      startsWithL lower "tap" || startsWithL lower "wg" then
    false
  else
    startsWithL lower "en" || startsWithL lower "eth" || startsWithL lower "wl" ||
      startsWithL lower "wwan" || startsWithL lower "ppp" ||
      containsStr lower "wan"

/-- Embeds `default_wan_interface` of `src/net.rs`. -/
def default_wan_interface (options : List String) : Option String :=
  match options.find? is_wan_candidate_interface with
  | some x => some x
  | none => options.head?

/-! ## Filter engine (`Filters` and `App::filtered_indices` in
`src/main.rs`) -/

/-- Embeds the `Filters` struct of `src/main.rs`: six free-text criteria. -/
structure Filters where
  service : String
  port : String
  ip : String
  action : String
  proto : String
  text : String
deriving DecidableEq, Repr

/-- Embeds `Filters::default()`. -/
def Filters.default : Filters := ⟨"", "", "", "", "", ""⟩

/-- Embeds the `FilterField` enum of `src/main.rs`. -/
inductive FilterField where
  | Service
  | Port
  | Ip
  | Action
  | Proto
  | Text
deriving DecidableEq, Repr

/-- Decimal rendering used by the port fallback comparison
(`map(|p| p.to_string()).unwrap_or_default()`). -/
def portText (o : Option Nat) : String :=
  match o with
  | some p => toString p
  | none => ""

/-- The port-criterion check inside `Filters::matches` (`src/main.rs`
lines 676-688): exact `u16` equality when the trimmed criterion parses,
substring fallback on the decimal string forms otherwise. -/
def portCriterionCheck (wanted : String) (e : LogEntry) : Bool :=
  match parseUInt 65535 wanted with
  | some p => e.src_port == some p || e.dst_port == some p
  | none =>
    containsStr (portText e.src_port) wanted || containsStr (portText e.dst_port) wanted

/-- Embeds `Filters::matches` of `src/main.rs`: every non-empty criterion
must accept the entry (the Rust early-return chain is a conjunction). -/
def Filters.matches (f : Filters) (e : LogEntry) : Bool :=
  (f.service.data.isEmpty ||
    containsStr (asciiLower (e.service.getD "")) (asciiLower f.service)) &&
  (f.port.data.isEmpty || portCriterionCheck (rustTrim f.port) e) &&
  (f.ip.data.isEmpty ||
    (containsStr (asciiLower (e.src_ip.getD "")) (asciiLower f.ip) ||
     containsStr (asciiLower (e.dst_ip.getD "")) (asciiLower f.ip))) &&
  (f.action.data.isEmpty ||
    containsStr (asciiLower e.action) (asciiLower f.action)) &&
  (f.proto.data.isEmpty ||
    containsStr (asciiLower (e.proto.getD "")) (asciiLower f.proto)) &&
  (f.text.data.isEmpty ||
    containsStr (asciiLower e.raw) (asciiLower f.text))

/-- The complete filter state consulted by `App::filtered_indices`. -/
structure FilterState where
  selected_interface : Option String
  filters : Filters
  show_local_src : Bool
  show_wan_src : Bool
  flow_filter : FlowFilter
  direction_filter : DirectionFilter
deriving DecidableEq, Repr

/-- Per-entry acceptance test of `App::filtered_indices` (`src/main.rs`
lines 393-420): the conjunction of the interface, source-visibility, flow,
direction and free-text checks. -/
def entryPasses (fs : FilterState) (e : LogEntry) : Bool :=
  (match fs.selected_interface with
   | some s => e.in_iface == some s || e.out_iface == some s
   | none => true) &&
  (fs.show_local_src || !is_local_src_ip e.src_ip) &&
  (fs.show_wan_src || !is_wan_src_ip e.src_ip) &&
  matches_flow_filter fs.flow_filter e &&
  matches_direction_filter fs.direction_filter e &&
  fs.filters.matches e

/-- Embeds `App::filtered_indices` as a pure function of the entry
collection and the filter state: the indices of the entries that pass all
checks, in collection order. -/
def visible_indices (entries : List LogEntry) (fs : FilterState) : List Nat :=
  ((entries.enum.filter fun p => entryPasses fs p.2).map fun p => p.1)

/-! ## Live source sync (`App` in `src/main.rs`) -/

/-- Embeds the `FileFingerprint` struct of `src/main.rs` (`SystemTime`
modelled as `Nat`). -/
structure FileFingerprint where
  modified : Option Nat
  len : Nat
deriving DecidableEq, Repr

/-- The `App` struct of `src/main.rs`, restricted to the fields the core
data pipeline reads or writes (`table_state.selected()` is kept as
`table_selected`; rendering-only fields are omitted). -/
structure App where
  log_path : String
  entries : List LogEntry
  interface_options : List String
  selected_interface : Option String
  filters : Filters
  show_local_src : Bool
  show_wan_src : Bool
  flow_filter : FlowFilter
  direction_filter : DirectionFilter
  updates_paused : Bool
  selected : Nat
  log_entry_scroll : Nat
  table_selected : Option Nat
  last_fingerprint : Option FileFingerprint
  status : String
deriving DecidableEq, Repr

/-- The filter state an `App` currently holds. -/
def App.filterState (a : App) : FilterState :=
  ⟨a.selected_interface, a.filters, a.show_local_src, a.show_wan_src,
    a.flow_filter, a.direction_filter⟩

/-- Embeds the `App::filtered_indices` method. -/
def App.filtered_indices (a : App) : List Nat :=
  visible_indices a.entries a.filterState

/-- Embeds `App::current_selected_raw`: the raw text of the currently
selected visible entry, if any. -/
def App.current_selected_raw (a : App) : Option String :=
  let f := a.filtered_indices
  if f.isEmpty then none
  else (f.get? (min a.selected (f.length - 1))).bind fun i =>
    (a.entries.get? i).map fun e => e.raw

/-- Embeds `selected_position_for_raw` of `src/main.rs`: position in the
visible sequence of the first entry whose `raw` equals the captured text. -/
def selected_position_for_raw (entries : List LogEntry) (filtered : List Nat)
    (raw : String) : Option Nat :=
  filtered.findIdx? fun i => (entries.get? i).map LogEntry.raw == some raw

/-- Embeds `App::sync_selection_with_len`. -/
def App.sync_selection_with_len (a : App) (len : Nat) : App :=
  if len = 0 then
    { a with selected := 0, log_entry_scroll := 0, table_selected := none }
  else
    let sel := min a.selected (len - 1)
    { a with
      selected := sel
      table_selected := some sel
      log_entry_scroll := if sel ≠ a.selected then 0 else a.log_entry_scroll }

/-- Byte-lexicographic string order used by the interface-catalogue sort
(Rust `String: Ord`; coincides with code-point order). -/
def charsLe : List Char → List Char → Bool
  | [], _ => true
  | _ :: _, [] => false
  | a :: as, b :: bs => if a = b then charsLe as bs else decide (a < b)

/-- Stable insertion used to model Rust `sort_by`. -/
def insertBy (le : α → α → Bool) (x : α) : List α → List α
  | [] => [x]
  | y :: ys => if le x y then x :: y :: ys else y :: insertBy le x ys

/-- Sort modelling Rust `slice::sort_by` (the comparator below is total
and antisymmetric on the catalogue, so stability is irrelevant). -/
def sortBy (le : α → α → Bool) : List α → List α
  | [] => []
  | x :: xs => insertBy le x (sortBy le xs)

/-- Comparator of `refresh_interface_options`: descending count, then
ascending name. -/
def ifaceLe (a b : String × Nat) : Bool :=
  if a.2 = b.2 then charsLe a.1.data b.1.data else decide (b.2 < a.2)

/-- The interface catalogue computed by `App::refresh_interface_options`:
every non-empty `in_iface`/`out_iface` value counted, sorted by descending
count then ascending name. -/
def computeOptions (entries : List LogEntry) : List String :=
  let names := (entries.flatMap fun e => [e.in_iface, e.out_iface]).filterMap id
    |>.filter fun n => !n.data.isEmpty
  let pairs := names.dedup.map fun n => (n, names.count n)
  (sortBy ifaceLe pairs).map fun p => p.1

/-- The interface choice of `App::refresh_interface_options`: keep the
previous selection if it still occurs, else fall back to
`default_wan_interface`. -/
def chooseIface (options : List String) (previous : Option String) : Option String :=
  match previous with
  | some prev => if options.contains prev then some prev else default_wan_interface options
  | none => default_wan_interface options

/-- Embeds `App::refresh_interface_options`. -/
def App.refresh_interface_options (a : App) (previous : Option String) : App :=
  let options := computeOptions a.entries
  { a with
    interface_options := options
    selected_interface := chooseIface options previous }

/-- Embeds `App::reload` (`src/main.rs` lines 242-272). File I/O is made
explicit: `result` is the outcome of `load_entries` and `fp` the outcome of
`file_fingerprint` on success. -/
def App.reload (a : App) (result : Except String (List LogEntry))
    (fp : Option FileFingerprint) : App :=
  let prev_selected := a.selected
  let prev_selected_raw := a.current_selected_raw
  let prev_iface := a.selected_interface
  match result with
  | .ok entries =>
    let a1 := App.refresh_interface_options { a with entries := entries } prev_iface
    let filtered := a1.filtered_indices
    let sel :=
      match prev_selected_raw with
      | some raw =>
        (selected_position_for_raw a1.entries filtered raw).getD
          (min prev_selected (filtered.length - 1))
      | none => min prev_selected (filtered.length - 1)
    let a2 := App.sync_selection_with_len { a1 with selected := sel } filtered.length
    { a2 with last_fingerprint := fp, status := "" }
  | .error err =>
    { a with
      entries := []
      selected := 0
      table_selected := none
      last_fingerprint := none
      status := "Failed to read " ++ a.log_path ++ ": " ++ err }

/-- Embeds `load_entries` of `src/main.rs`: parse every line independently,
then reverse (newest first). -/
def load_entries (svc : Nat → Option String) (contents : List String) :
    List LogEntry :=
  (contents.filterMap (parse_ufw_line svc)).reverse

/-- Embeds `App::set_filter_value`. -/
def App.set_filter_value (a : App) (field : FilterField) (value : String) : App :=
  let cleaned := rustTrim value
  let f := a.filters
  let filters :=
    match field with
    | .Service => { f with service := cleaned }
    | .Port => { f with port := cleaned }
    | .Ip => { f with ip := cleaned }
    | .Action => { f with action := cleaned }
    | .Proto => { f with proto := cleaned }
    | .Text => { f with text := cleaned }
  { a with filters := filters, selected := 0, log_entry_scroll := 0 }

/-- Label of a filter field (`FilterField::label`). -/
def FilterField.label : FilterField → String
  | .Service => "service"
  | .Port => "port"
  | .Ip => "ip"
  | .Action => "action"
  | .Proto => "protocol"
  | .Text => "text"

/-- Embeds `selected_iface_label` of `src/main.rs`. -/
def selected_iface_label (value : Option String) : String :=
  value.getD "all"

/-- Embeds `App::clear_filter`. -/
def App.clear_filter (a : App) (field : FilterField) : App :=
  let a := a.set_filter_value field ""
  let matchCount := a.filtered_indices.length
  { a with
    status := "Cleared " ++ field.label ++ " filter. Matching rows: " ++ toString matchCount }

/-- Embeds `App::clear_filters`. -/
def App.clear_filters (a : App) : App :=
  let a := { a with
    filters := Filters.default
    show_local_src := false
    show_wan_src := true
    flow_filter := .All
    direction_filter := .Both
    selected_interface := default_wan_interface a.interface_options
    selected := 0
    log_entry_scroll := 0
    table_selected := some 0 }
  { a with
    status := "Cleared filters (local src hidden, wan src shown, flow all, dir in+out, interface: "
      ++ selected_iface_label a.selected_interface ++ ")" }

/-- Embeds `App::set_selected_interface`. -/
def App.set_selected_interface (a : App) (interface : Option String) : App :=
  { a with
    selected_interface := interface
    selected := 0
    log_entry_scroll := 0
    table_selected := some 0 }

/-- Embeds `App::toggle_show_local_src` (status text elided to the part
relevant to the data pipeline). -/
def App.toggle_show_local_src (a : App) : App :=
  let a := { a with
    show_local_src := !a.show_local_src
    selected := 0
    log_entry_scroll := 0
    table_selected := some 0 }
  let matchCount := a.filtered_indices.length
  { a with
    status := (if a.show_local_src then "Showing local source IP rows. Matching rows: "
      else "Hiding local source IP rows. Matching rows: ") ++ toString matchCount }

/-- Embeds `App::toggle_show_wan_src`. -/
def App.toggle_show_wan_src (a : App) : App :=
  let a := { a with
    show_wan_src := !a.show_wan_src
    selected := 0
    log_entry_scroll := 0
    table_selected := some 0 }
  let matchCount := a.filtered_indices.length
  { a with
    status := (if a.show_wan_src then "Showing WAN source IP rows. Matching rows: "
      else "Hiding WAN source IP rows. Matching rows: ") ++ toString matchCount }

/-- Embeds `App::cycle_flow_filter`. -/
def App.cycle_flow_filter (a : App) : App :=
  let a := { a with
    flow_filter := a.flow_filter.next
    selected := 0
    log_entry_scroll := 0
    table_selected := some 0 }
  let matchCount := a.filtered_indices.length
  { a with status := "Flow filter changed. Matching rows: " ++ toString matchCount }

/-- Embeds `App::cycle_direction_filter`. -/
def App.cycle_direction_filter (a : App) : App :=
  let a := { a with
    direction_filter := a.direction_filter.next
    selected := 0
    log_entry_scroll := 0
    table_selected := some 0 }
  let matchCount := a.filtered_indices.length
  { a with status := "Direction filter changed. Matching rows: " ++ toString matchCount }

/-- Embeds `App::select_all_interfaces`. -/
def App.select_all_interfaces (a : App) : App :=
  let a := a.set_selected_interface none
  let matchCount := a.filtered_indices.length
  { a with status := "Interface: all. Matching rows: " ++ toString matchCount }

/-- Embeds `App::select_default_wan_interface`. -/
def App.select_default_wan_interface (a : App) : App :=
  let a := a.set_selected_interface (default_wan_interface a.interface_options)
  let matchCount := a.filtered_indices.length
  { a with
    status := "Interface: " ++ selected_iface_label a.selected_interface
      ++ ". Matching rows: " ++ toString matchCount }

/-- Embeds the `ToggleTarget::Interface(name)` arm of `apply_toggle_target`
(`src/main.rs` lines 1503-1511): select a specific named interface, then
report the match count. -/
def App.select_named_interface (a : App) (name : String) : App :=
  let a := a.set_selected_interface (some name)
  let matchCount := a.filtered_indices.length
  { a with
    status := "Interface: " ++ selected_iface_label a.selected_interface
      ++ ". Matching rows: " ++ toString matchCount }

/-- Embeds `App::cycle_interface` (`src/main.rs` lines 449-486), with the
Rust `isize` index arithmetic carried out on `Int`. -/
def App.cycle_interface (a : App) (forward : Bool) : App :=
  if a.interface_options.isEmpty then
    { a with
      selected_interface := none
      status := "No interfaces found in logs" }
  else
    let len : Int := a.interface_options.length
    let idx : Int :=
      match a.selected_interface.bind
        (fun sel => a.interface_options.findIdx? (· == sel)) with
      | some i => (i : Int)
      | none => -1
    let idx :=
      if forward then (if idx ≥ len - 1 then -1 else idx + 1)
      else if idx < 0 then len - 1
      else idx - 1
    let a := a.set_selected_interface
      (if idx < 0 then none else a.interface_options.get? idx.toNat)
    let matchCount := a.filtered_indices.length
    { a with
      status := "Interface: " ++ selected_iface_label a.selected_interface
        ++ ". Matching rows: " ++ toString matchCount }

/-- The key-driven selection moves (`KeyCode::Up`/`KeyCode::Down` handling
in `src/main.rs`): decrement or increment then clamp via
`sync_selection_with_len`; no-ops when nothing is visible. -/
def App.move_selection_up (a : App) : App :=
  let filtered_len := a.filtered_indices.length
  if 0 < filtered_len then
    App.sync_selection_with_len { a with selected := a.selected - 1 } filtered_len
  else a

/-- Downward companion of `App.move_selection_up`. -/
def App.move_selection_down (a : App) : App :=
  let filtered_len := a.filtered_indices.length
  if 0 < filtered_len then
    App.sync_selection_with_len
      { a with selected := min (a.selected + 1) (filtered_len - 1) } filtered_len
  else a

/-! ## General-purpose lemmas -/

theorem string_data_append (s t : String) : (s ++ t).data = s.data ++ t.data := by
  cases s; cases t; rfl

theorem length_filter_le_of_imp {α : Type} (p q : α → Bool)
    (h : ∀ x, p x = true → q x = true) :
    ∀ l : List α, (l.filter p).length ≤ (l.filter q).length := by
  intro l
  induction l with
  | nil => simp
  | cons x xs ih =>
    by_cases hp : p x = true
    · have hq := h x hp
      simp only [List.filter_cons, hp, hq, if_true, List.length_cons]
      exact Nat.succ_le_succ ih
    · have hp' : p x = false := by simpa using hp
      by_cases hq : q x = true
      · simp only [List.filter_cons, hp', hq, Bool.false_eq_true, if_false, if_true,
          List.length_cons]
        exact Nat.le_trans ih (Nat.le_succ _)
      · have hq' : q x = false := by simpa using hq
        simp only [List.filter_cons, hp', hq', Bool.false_eq_true, if_false]
        exact ih

theorem visible_indices_le_of_imp (entries : List LogEntry) {fs₁ fs₂ : FilterState}
    (h : ∀ e, entryPasses fs₁ e = true → entryPasses fs₂ e = true) :
    (visible_indices entries fs₁).length ≤ (visible_indices entries fs₂).length := by
  unfold visible_indices
  rw [List.length_map, List.length_map]
  exact length_filter_le_of_imp _ _ (fun p hp => h p.2 hp) _

/-! ## Claim C7: direction derivation -/

/-- Spec-side notion of "holds a non-empty string" for an optional
interface field (`Modelled from the spec:` wording of §3; `Some("")` and
`None` are both "no interface"). -/
def present_nonempty (o : Option String) : Bool :=
  match o with
  | some v => decide (v ≠ "")
  | none => false

/-- Spec-side direction table (§3): both empty → unknown, only in →
inbound, only out → outbound, both → forwarded. -/
def direction_spec : Bool → Bool → String
  | false, false => "?"
  | true, false => "IN"
  | false, true => "OUT"
  | true, true => "FWD"

theorem present_nonempty_eq_code (o : Option String) :
    present_nonempty o = (match o with
      | some v => !v.data.isEmpty
      | none => false) := by
  cases o with
  | none => rfl
  | some v =>
    cases v with
    | mk l =>
      cases l with
      | nil => simp [present_nonempty]
      | cons c cs =>
        simp only [present_nonempty, List.isEmpty_cons, Bool.not_false,
          decide_eq_true_eq]
        simp [String.ext_iff]

/-- C7: the derived direction is a pure function of the presence of a
non-empty `in_iface`/`out_iface`; a present-but-empty interface behaves
exactly like an absent one, and a bare `OUT=` token parses to
`Some("")`. -/
theorem direction_derivation :
    (∀ e : LogEntry,
      e.direction = direction_spec (present_nonempty e.in_iface) (present_nonempty e.out_iface)) ∧
    (∀ e : LogEntry,
      LogEntry.direction { e with out_iface := some "" } =
        LogEntry.direction { e with out_iface := none } ∧
      LogEntry.direction { e with in_iface := some "" } =
        LogEntry.direction { e with in_iface := none }) ∧
    parse_field "Feb 11 h kernel: [UFW BLOCK] IN=eth0 OUT= SRC=1.2.3.4" "OUT" = some "" := by
  refine ⟨?_, ?_, by decide⟩
  · intro e
    unfold LogEntry.direction
    rw [← present_nonempty_eq_code e.in_iface, ← present_nonempty_eq_code e.out_iface]
    cases present_nonempty e.in_iface <;> cases present_nonempty e.out_iface <;> rfl
  · intro e
    constructor <;> · unfold LogEntry.direction; rfl

/-! ## Claim C9: reload failure semantics -/

/-- C9: when reading the backing file fails, `reload` clears the entry
collection (so nothing is visible), forces the selection to zero/empty,
invalidates the fingerprint, surfaces a non-empty descriptive status, and
leaves every filter-state component untouched. -/
theorem reload_failure_state (a : App) (err : String) (fp : Option FileFingerprint) :
    (a.reload (.error err) fp).entries = [] ∧
    (a.reload (.error err) fp).selected = 0 ∧
    (a.reload (.error err) fp).table_selected = none ∧
    (a.reload (.error err) fp).last_fingerprint = none ∧
    (a.reload (.error err) fp).status = "Failed to read " ++ a.log_path ++ ": " ++ err ∧
    (a.reload (.error err) fp).status ≠ "" ∧
    (a.reload (.error err) fp).filters = a.filters ∧
    (a.reload (.error err) fp).selected_interface = a.selected_interface ∧
    (a.reload (.error err) fp).show_local_src = a.show_local_src ∧
    (a.reload (.error err) fp).show_wan_src = a.show_wan_src ∧
    (a.reload (.error err) fp).flow_filter = a.flow_filter ∧
    (a.reload (.error err) fp).direction_filter = a.direction_filter ∧
    (a.reload (.error err) fp).filtered_indices = [] := by
  refine ⟨rfl, rfl, rfl, rfl, rfl, ?_, rfl, rfl, rfl, rfl, rfl, rfl, rfl⟩
  intro h
  have h' : "Failed to read " ++ a.log_path ++ ": " ++ err = "" := h
  have h2 := congrArg String.data h'
  rw [string_data_append, string_data_append, string_data_append] at h2
  have h3 : "Failed to read ".data = [] := (List.append_eq_nil.mp
    ((List.append_eq_nil.mp ((List.append_eq_nil.mp h2).1)).1)).1
  exact absurd h3 (by decide)

/-! ## Claim C2: `is_local_ip` on absent/empty/unparseable input -/

/-- C2 counterexample: `"fc"` and `"010.0.0.1"` are both rejected by
`std::net::IpAddr` parsing, yet `is_local_ip` returns `true` for them (the
IPv6 local-prefix test, respectively the manual octet scan that accepts
leading zeros, fires before any parseability requirement). -/
theorem is_local_unparseable_counterexample :
    is_local_ip (some "fc") = true ∧ parseIpAddr (rustTrim "fc") = none ∧
    is_local_ip (some "010.0.0.1") = true ∧
    parseIpAddr (rustTrim "010.0.0.1") = none := by decide

/-- C2 amended: absent or blank input yields `false`; input whose trimmed
form is not parseable as an IP address yields `false` unless the trimmed
string matches the IPv6 local-prefix tests (`::1`, `fe80:`, `fc`, `fd`,
case-insensitively) — then the result is `true` — or the manual four-octet
scan (Rust `u8` parsing per component, which accepts leading zeros and `+`)
succeeds with its leading octets in a local range — then the result is
`true`; a scan that succeeds outside the local ranges still yields
`false`. -/
theorem is_local_false_cases :
    is_local_ip none = false ∧
    (∀ s : String, (rustTrim s).data.isEmpty = true → is_local_ip (some s) = false) ∧
    (∀ s : String, parseIpAddr (rustTrim s) = none →
      v6LocalHeuristic (rustTrim s) = false →
      ((manualOctets (rustTrim s)).all fun o => !localV4Range o.1 o.2.1) = true →
      is_local_ip (some s) = false) ∧
    (∀ s : String, (rustTrim s).data.isEmpty = false →
      v6LocalHeuristic (rustTrim s) = true →
      is_local_ip (some s) = true) ∧
    (∀ s : String, ∀ a b c d : Nat, (rustTrim s).data.isEmpty = false →
      v6LocalHeuristic (rustTrim s) = false →
      manualOctets (rustTrim s) = some (a, b, c, d) →
      localV4Range a b = true →
      is_local_ip (some s) = true) := by
  refine ⟨rfl, ?_, ?_, ?_, ?_⟩
  · intro s h
    simp [is_local_ip, localCore, h]
  · intro s _ h2 h3
    simp only [is_local_ip, localCore, h2, Bool.false_eq_true, if_false]
    cases he : (rustTrim s).data.isEmpty with
    | true => rfl
    | false =>
      rw [if_neg (by simp)]
      cases hm : manualOctets (rustTrim s) with
      | none => rfl
      | some o =>
        obtain ⟨a, b, c, d⟩ := o
        rw [hm] at h3
        simpa using h3
  · intro s h1 h2
    simp [is_local_ip, localCore, h1, h2]
  · intro s a b c d h1 h2 hm hr
    simp [is_local_ip, localCore, h1, h2, hm, hr]

/-- Witness for `is_local_false_cases`: blank input, unparseable text, a
scan-accepted string outside the local ranges (`false`), and a
scan-accepted string inside them (`true`). -/
theorem is_local_false_cases_witness :
    is_local_ip (some "hello") = false ∧
    is_local_ip (some "   ") = false ∧
    is_local_ip (some "011.0.0.1") = false ∧
    is_local_ip (some "010.0.0.1") = true :=
  ⟨is_local_false_cases.2.2.1 "hello" (by decide) (by decide) (by decide),
   is_local_false_cases.2.1 "   " (by decide),
   is_local_false_cases.2.2.1 "011.0.0.1" (by decide) (by decide) (by decide),
   is_local_false_cases.2.2.2.2 "010.0.0.1" 10 0 0 1 (by decide) (by decide)
     (by decide) (by decide)⟩

/-! ## Claim C6: the port criterion -/

/-- Spec-side reading of the port criterion (§4.3 item 6): exact equality
with either port when the criterion parses as a 16-bit integer, substring
containment on the decimal renderings otherwise (absent port rendering as
the empty string). -/
def port_criterion_spec (c : String) (e : LogEntry) : Prop :=
  match parseUInt 65535 c with
  | some p => e.src_port = some p ∨ e.dst_port = some p
  | none =>
    containsStr (portText e.src_port) c = true ∨
    containsStr (portText e.dst_port) c = true

/-- C6: for a non-empty, trimmed port criterion (the only reachable form:
`set_filter_value` trims every stored criterion), an entry passes the
filter iff the spec-side port condition holds. Stated with all other
criteria empty so that `Filters::matches` is exactly the port check. -/
theorem port_criterion_semantics (e : LogEntry) (c : String)
    (hne : c.data.isEmpty = false) (ht : rustTrim c = c) :
    Filters.matches ⟨"", c, "", "", "", ""⟩ e = true ↔ port_criterion_spec c e := by
  unfold Filters.matches port_criterion_spec portCriterionCheck
  rw [ht]
  cases hp : parseUInt 65535 c with
  | some p =>
    simp [hne, hp, beq_iff_eq]
  | none =>
    simp [hne, hp]

/-- Witness for `port_criterion_semantics`: criterion `"80"` matched
exactly, criterion `"80x"` falling back to substring containment. -/
theorem port_criterion_semantics_witness :
    Filters.matches ⟨"", "80", "", "", "", ""⟩
      { timestamp := "", action := "A", in_iface := none, out_iface := none,
        src_ip := none, dst_ip := none, src_port := some 80, dst_port := none,
        proto := none, service := none, raw := "r" } = true ∧
    ¬ port_criterion_spec "80x"
      { timestamp := "", action := "A", in_iface := none, out_iface := none,
        src_ip := none, dst_ip := none, src_port := some 80, dst_port := none,
        proto := none, service := none, raw := "r" } :=
  ⟨(port_criterion_semantics _ "80" (by decide) (by decide)).mpr (Or.inl rfl),
   fun hspec => by
    have h := (port_criterion_semantics _ "80x" (by decide) (by decide)).mpr hspec
    exact absurd h (by decide)⟩

/-! ## Claim C4: adding one restrictive criterion never grows the visible
sequence -/

/-- The single-criterion restrictions enumerated by the claim: setting a
previously empty text criterion, disabling a visibility toggle, selecting
a specific interface, or narrowing the flow/direction classifier. -/
inductive RestrictStep : FilterState → FilterState → Prop
  | setService (fs : FilterState) (v : String) (h : fs.filters.service = "") :
      RestrictStep fs { fs with filters := { fs.filters with service := v } }
  | setPort (fs : FilterState) (v : String) (h : fs.filters.port = "") :
      RestrictStep fs { fs with filters := { fs.filters with port := v } }
  | setIp (fs : FilterState) (v : String) (h : fs.filters.ip = "") :
      RestrictStep fs { fs with filters := { fs.filters with ip := v } }
  | setAction (fs : FilterState) (v : String) (h : fs.filters.action = "") :
      RestrictStep fs { fs with filters := { fs.filters with action := v } }
  | setProto (fs : FilterState) (v : String) (h : fs.filters.proto = "") :
      RestrictStep fs { fs with filters := { fs.filters with proto := v } }
  | setText (fs : FilterState) (v : String) (h : fs.filters.text = "") :
      RestrictStep fs { fs with filters := { fs.filters with text := v } }
  | disableLocal (fs : FilterState) (h : fs.show_local_src = true) :
      RestrictStep fs { fs with show_local_src := false }
  | disableWan (fs : FilterState) (h : fs.show_wan_src = true) :
      RestrictStep fs { fs with show_wan_src := false }
  | selectIface (fs : FilterState) (i : String) (h : fs.selected_interface = none) :
      RestrictStep fs { fs with selected_interface := some i }
  | narrowFlow (fs : FilterState) (flow : FlowFilter) (h : fs.flow_filter = .All) :
      RestrictStep fs { fs with flow_filter := flow }
  | narrowDirection (fs : FilterState) (d : DirectionFilter)
      (h : fs.direction_filter = .Both) :
      RestrictStep fs { fs with direction_filter := d }

theorem matches_imp_of_empty_service (f : Filters) (v : String) (h : f.service = "")
    (e : LogEntry) (hm : Filters.matches { f with service := v } e = true) :
    Filters.matches f e = true := by
  unfold Filters.matches at hm ⊢
  simp only [Bool.and_eq_true] at hm ⊢
  exact ⟨⟨⟨⟨⟨by simp [h], hm.1.1.1.1.2⟩, hm.1.1.1.2⟩, hm.1.1.2⟩, hm.1.2⟩, hm.2⟩

theorem matches_imp_of_empty_port (f : Filters) (v : String) (h : f.port = "")
    (e : LogEntry) (hm : Filters.matches { f with port := v } e = true) :
    Filters.matches f e = true := by
  unfold Filters.matches at hm ⊢
  simp only [Bool.and_eq_true] at hm ⊢
  exact ⟨⟨⟨⟨⟨hm.1.1.1.1.1, by simp [h]⟩, hm.1.1.1.2⟩, hm.1.1.2⟩, hm.1.2⟩, hm.2⟩

theorem matches_imp_of_empty_ip (f : Filters) (v : String) (h : f.ip = "")
    (e : LogEntry) (hm : Filters.matches { f with ip := v } e = true) :
    Filters.matches f e = true := by
  unfold Filters.matches at hm ⊢
  simp only [Bool.and_eq_true] at hm ⊢
  exact ⟨⟨⟨⟨⟨hm.1.1.1.1.1, hm.1.1.1.1.2⟩, by simp [h]⟩, hm.1.1.2⟩, hm.1.2⟩, hm.2⟩

theorem matches_imp_of_empty_action (f : Filters) (v : String) (h : f.action = "")
    (e : LogEntry) (hm : Filters.matches { f with action := v } e = true) :
    Filters.matches f e = true := by
  unfold Filters.matches at hm ⊢
  simp only [Bool.and_eq_true] at hm ⊢
  exact ⟨⟨⟨⟨⟨hm.1.1.1.1.1, hm.1.1.1.1.2⟩, hm.1.1.1.2⟩, by simp [h]⟩, hm.1.2⟩, hm.2⟩

theorem matches_imp_of_empty_proto (f : Filters) (v : String) (h : f.proto = "")
    (e : LogEntry) (hm : Filters.matches { f with proto := v } e = true) :
    Filters.matches f e = true := by
  unfold Filters.matches at hm ⊢
  simp only [Bool.and_eq_true] at hm ⊢
  exact ⟨⟨⟨⟨⟨hm.1.1.1.1.1, hm.1.1.1.1.2⟩, hm.1.1.1.2⟩, hm.1.1.2⟩, by simp [h]⟩, hm.2⟩

theorem matches_imp_of_empty_text (f : Filters) (v : String) (h : f.text = "")
    (e : LogEntry) (hm : Filters.matches { f with text := v } e = true) :
    Filters.matches f e = true := by
  unfold Filters.matches at hm ⊢
  simp only [Bool.and_eq_true] at hm ⊢
  exact ⟨⟨⟨⟨⟨hm.1.1.1.1.1, hm.1.1.1.1.2⟩, hm.1.1.1.2⟩, hm.1.1.2⟩, hm.1.2⟩, by simp [h]⟩

/-- C4: adding any single additional restrictive criterion never increases
the length of the visible-index sequence. -/
theorem visible_indices_restrict_antitone (entries : List LogEntry)
    (fs fs' : FilterState) (h : RestrictStep fs fs') :
    (visible_indices entries fs').length ≤ (visible_indices entries fs).length := by
  apply visible_indices_le_of_imp
  intro e hm
  cases h with
  | setService v h =>
    unfold entryPasses at hm ⊢
    simp only [Bool.and_eq_true] at hm ⊢
    exact ⟨hm.1, matches_imp_of_empty_service fs.filters v h e hm.2⟩
  | setPort v h =>
    unfold entryPasses at hm ⊢
    simp only [Bool.and_eq_true] at hm ⊢
    exact ⟨hm.1, matches_imp_of_empty_port fs.filters v h e hm.2⟩
  | setIp v h =>
    unfold entryPasses at hm ⊢
    simp only [Bool.and_eq_true] at hm ⊢
    exact ⟨hm.1, matches_imp_of_empty_ip fs.filters v h e hm.2⟩
  | setAction v h =>
    unfold entryPasses at hm ⊢
    simp only [Bool.and_eq_true] at hm ⊢
    exact ⟨hm.1, matches_imp_of_empty_action fs.filters v h e hm.2⟩
  | setProto v h =>
    unfold entryPasses at hm ⊢
    simp only [Bool.and_eq_true] at hm ⊢
    exact ⟨hm.1, matches_imp_of_empty_proto fs.filters v h e hm.2⟩
  | setText v h =>
    unfold entryPasses at hm ⊢
    simp only [Bool.and_eq_true] at hm ⊢
    exact ⟨hm.1, matches_imp_of_empty_text fs.filters v h e hm.2⟩
  | disableLocal h =>
    unfold entryPasses at hm ⊢
    simp only [Bool.and_eq_true] at hm ⊢
    exact ⟨⟨⟨⟨⟨hm.1.1.1.1.1, by simp [h]⟩, hm.1.1.1.2⟩, hm.1.1.2⟩, hm.1.2⟩, hm.2⟩
  | disableWan h =>
    unfold entryPasses at hm ⊢
    simp only [Bool.and_eq_true] at hm ⊢
    exact ⟨⟨⟨⟨⟨hm.1.1.1.1.1, hm.1.1.1.1.2⟩, by simp [h]⟩, hm.1.1.2⟩, hm.1.2⟩, hm.2⟩
  | selectIface i h =>
    unfold entryPasses at hm ⊢
    simp only [Bool.and_eq_true] at hm ⊢
    exact ⟨⟨⟨⟨⟨by simp [h], hm.1.1.1.1.2⟩, hm.1.1.1.2⟩, hm.1.1.2⟩, hm.1.2⟩, hm.2⟩
  | narrowFlow flow h =>
    unfold entryPasses at hm ⊢
    simp only [Bool.and_eq_true] at hm ⊢
    exact ⟨⟨⟨⟨⟨hm.1.1.1.1.1, hm.1.1.1.1.2⟩, hm.1.1.1.2⟩, by simp [h, matches_flow_filter]⟩,
      hm.1.2⟩, hm.2⟩
  | narrowDirection d h =>
    unfold entryPasses at hm ⊢
    simp only [Bool.and_eq_true] at hm ⊢
    exact ⟨⟨⟨⟨⟨hm.1.1.1.1.1, hm.1.1.1.1.2⟩, hm.1.1.1.2⟩, hm.1.1.2⟩,
      by simp [h, matches_direction_filter]⟩, hm.2⟩

/-- Witness for `visible_indices_restrict_antitone`: disabling the
show-WAN toggle on a concrete two-entry collection. -/
theorem visible_indices_restrict_antitone_witness :
    (visible_indices
      [{ timestamp := "", action := "A", in_iface := none, out_iface := none,
         src_ip := some "8.8.8.8", dst_ip := none, src_port := none, dst_port := none,
         proto := none, service := none, raw := "w" },
       { timestamp := "", action := "A", in_iface := none, out_iface := none,
         src_ip := some "10.0.0.1", dst_ip := none, src_port := none, dst_port := none,
         proto := none, service := none, raw := "l" }]
      ⟨none, Filters.default, true, false, .All, .Both⟩).length ≤
    (visible_indices
      [{ timestamp := "", action := "A", in_iface := none, out_iface := none,
         src_ip := some "8.8.8.8", dst_ip := none, src_port := none, dst_port := none,
         proto := none, service := none, raw := "w" },
       { timestamp := "", action := "A", in_iface := none, out_iface := none,
         src_ip := some "10.0.0.1", dst_ip := none, src_port := none, dst_port := none,
         proto := none, service := none, raw := "l" }]
      ⟨none, Filters.default, true, true, .All, .Both⟩).length :=
  visible_indices_restrict_antitone _
    ⟨none, Filters.default, true, true, .All, .Both⟩
    ⟨none, Filters.default, true, false, .All, .Both⟩
    (.disableWan _ rfl)

/-! ## Claim C5: local/WAN complementarity -/

theorem dropWhile_head?_not {α : Type} (p : α → Bool) (l : List α) (x : α)
    (h : (l.dropWhile p).head? = some x) : p x = false := by
  induction l with
  | nil => simp at h
  | cons a as ih =>
    by_cases hp : p a = true
    · rw [List.dropWhile_cons, if_pos hp] at h
      exact ih h
    · have hp' : p a = false := by simpa using hp
      rw [List.dropWhile_cons, if_neg (by simp [hp'])] at h
      simp only [List.head?_cons, Option.some.injEq] at h
      rw [← h]
      exact hp'

theorem dropWhile_dropWhile {α : Type} (p : α → Bool) (l : List α) :
    (l.dropWhile p).dropWhile p = l.dropWhile p := by
  cases h : l.dropWhile p with
  | nil => rfl
  | cons x xs =>
    have hx : p x = false := dropWhile_head?_not p l x (by rw [h]; rfl)
    rw [List.dropWhile_cons, if_neg (by simp [hx])]

theorem trimL_idem (l : List Char) : trimL (trimL l) = trimL l := by
  unfold trimL
  set A := l.dropWhile isWs with hA
  set B := A.reverse.dropWhile isWs with hB
  have hBdrop : B.dropWhile isWs = B := by rw [hB, dropWhile_dropWhile]
  have hfront : B.reverse.dropWhile isWs = B.reverse := by
    cases h : B.reverse with
    | nil => rfl
    | cons x xs =>
      have hpre : (x :: xs) <+: A := by
        rw [← h]
        have hsuf : B <:+ A.reverse := hB ▸ List.dropWhile_suffix isWs
        have := List.reverse_prefix.mpr hsuf
        simpa using this
      obtain ⟨rest, hrest⟩ := hpre
      have hx : isWs x = false := by
        apply dropWhile_head?_not isWs l
        rw [← hA, ← hrest]
        rfl
      rw [List.dropWhile_cons, if_neg (by simp [hx])]
  rw [hfront, List.reverse_reverse, hBdrop]

theorem rustTrim_idem (s : String) : rustTrim (rustTrim s) = rustTrim s := by
  unfold rustTrim
  exact congrArg String.mk (trimL_idem s.data)

/-- C5: over strings whose trimmed form parses as a non-unspecified,
non-multicast IP address, `is_wan_ip` is exactly the negation of
`is_local_ip`. -/
theorem local_wan_complementary (s : String) (a : IpAddr)
    (hp : parseIpAddr (rustTrim s) = some a)
    (hu : a.isUnspecified = false) (hm : a.isMulticast = false) :
    is_wan_ip (some s) = !is_local_ip (some s) := by
  have hne : (rustTrim s).data.isEmpty = false := by
    cases he : (rustTrim s).data.isEmpty
    · rfl
    · exfalso
      have hd : (rustTrim s).data = [] := by simpa using he
      have hempty : rustTrim s = "" := by
        apply String.ext
        rw [hd]
      rw [hempty] at hp
      have hnone : parseIpAddr "" = none := by decide
      rw [hnone] at hp
      exact Option.noConfusion hp
  show (if (rustTrim s).data.isEmpty then false
    else match parseIpAddr (rustTrim s) with
      | none => false
      | some a =>
        if a.isUnspecified || a.isMulticast then false
        else !is_local_ip (some (rustTrim s))) = !is_local_ip (some s)
  rw [hne, hp]
  simp only [Bool.false_eq_true, if_false, hu, hm, Bool.or_self]
  show (!localCore (rustTrim (rustTrim s))) = !localCore (rustTrim s)
  rw [rustTrim_idem]

/-- Witness for `local_wan_complementary`: the valid public address
`8.8.8.8`. -/
theorem local_wan_complementary_witness :
    is_wan_ip (some "8.8.8.8") = !is_local_ip (some "8.8.8.8") :=
  local_wan_complementary "8.8.8.8" (.v4 8 8 8 8) (by decide) (by decide) (by decide)

/-! ## Claim C1: the timestamp -/

theorem isPrefixOf_append_self (a b : List Char) : a.isPrefixOf (a ++ b) = true := by
  induction a with
  | nil => simp [List.isPrefixOf]
  | cons x xs ih => simp [List.isPrefixOf, ih]

theorem findSubIdx_none_of_contains_false (needle l : List Char)
    (h : containsSub needle l = false) : findSubIdx needle l = none := by
  induction l with
  | nil =>
    unfold containsSub at h
    unfold findSubIdx
    rw [h]
    rfl
  | cons x xs ih =>
    unfold containsSub at h
    rw [Bool.or_eq_false_iff] at h
    unfold findSubIdx
    rw [h.1, ih h.2]
    rfl

theorem findSubIdx_first (needle post : List Char) (hne : needle ≠ []) :
    ∀ pre : List Char,
      (∀ j < pre.length, needle.isPrefixOf ((pre ++ needle ++ post).drop j) = false) →
      findSubIdx needle (pre ++ needle ++ post) = some pre.length := by
  intro pre
  induction pre with
  | nil =>
    intro _
    cases needle with
    | nil => exact absurd rfl hne
    | cons n ns =>
      show findSubIdx (n :: ns) ((n :: ns) ++ post) = some 0
      rw [List.cons_append]
      unfold findSubIdx
      rw [show (n :: ns).isPrefixOf (n :: (ns ++ post)) = true from
        isPrefixOf_append_self (n :: ns) post]
      rfl
  | cons c pre' ih =>
    intro hmin
    have h0 : needle.isPrefixOf (c :: (pre' ++ needle ++ post)) = false := by
      have := hmin 0 (by simp)
      simpa using this
    show findSubIdx needle (c :: (pre' ++ needle ++ post)) = some (pre'.length + 1)
    unfold findSubIdx
    rw [h0]
    have hmin' : ∀ j < pre'.length,
        needle.isPrefixOf ((pre' ++ needle ++ post).drop j) = false := by
      intro j hj
      have := hmin (j + 1) (by simpa using Nat.succ_lt_succ hj)
      simpa using this
    rw [ih hmin']
    rfl

/-- C1 counterexample: `"[UFW BLOCK] SRC=1.2.3.4"` is accepted, contains no
`" kernel:"`, and its timestamp is the whole (trimmed) line — not the empty
string the claim requires. -/
theorem timestamp_counterexample :
    (parse_ufw_line svc0 "[UFW BLOCK] SRC=1.2.3.4").map LogEntry.timestamp =
      some "[UFW BLOCK] SRC=1.2.3.4" ∧
    containsSub kernelSep "[UFW BLOCK] SRC=1.2.3.4".data = false ∧
    ("[UFW BLOCK] SRC=1.2.3.4" : String) ≠ "" := by decide

/-- C1 amended: for every accepted line, the timestamp is the text before
the first occurrence of `" kernel:"`, trimmed; when the line does not
contain `" kernel:"` at all, the timestamp is the entire line, trimmed
(not the empty string). -/
theorem parse_timestamp (svc : Nat → Option String) (line : String) (e : LogEntry)
    (h : parse_ufw_line svc line = some e) :
    (containsSub kernelSep line.data = false → e.timestamp = rustTrim line) ∧
    (∀ pre post : List Char, line.data = pre ++ kernelSep ++ post →
      (∀ j < pre.length, kernelSep.isPrefixOf (line.data.drop j) = false) →
      e.timestamp = ⟨trimL pre⟩) := by
  have hts : e.timestamp = ⟨trimL (beforeFirst kernelSep line.data)⟩ := by
    unfold parse_ufw_line at h
    cases ha : parse_action line with
    | none => rw [ha] at h; exact Option.noConfusion h
    | some act =>
      rw [ha] at h
      simp only [Option.some.injEq] at h
      rw [← h]
  constructor
  · intro hcontains
    rw [hts]
    unfold beforeFirst
    rw [findSubIdx_none_of_contains_false kernelSep line.data hcontains]
    rfl
  · intro pre post hdecomp hmin
    rw [hts]
    unfold beforeFirst
    rw [hdecomp]
    rw [findSubIdx_first kernelSep post (by decide) pre (by rw [← hdecomp]; exact hmin)]
    show (⟨trimL (List.take pre.length (pre ++ kernelSep ++ post))⟩ : String) =
      ⟨trimL pre⟩
    rw [List.append_assoc, List.take_left]

/-- Witness for `parse_timestamp`: one line with a `" kernel:"` marker, one
without. -/
theorem parse_timestamp_witness :
    (parse_ufw_line svc0 "Feb 11 host kernel: [UFW BLOCK] IN=eth0").map
        LogEntry.timestamp = some "Feb 11 host" ∧
    (parse_ufw_line svc0 "[UFW ALLOW] DPT=22").map LogEntry.timestamp =
      some "[UFW ALLOW] DPT=22" := by
  constructor
  · have h : parse_ufw_line svc0 "Feb 11 host kernel: [UFW BLOCK] IN=eth0" =
        some ⟨"Feb 11 host", "BLOCK", some "eth0", none, none, none, none, none,
          none, none, "Feb 11 host kernel: [UFW BLOCK] IN=eth0"⟩ := by decide
    have h2 := (parse_timestamp svc0 _ _ h).2 "Feb 11 host".data
      " [UFW BLOCK] IN=eth0".data (by decide) (by decide)
    rw [h]
    exact congrArg some h2
  · have h : parse_ufw_line svc0 "[UFW ALLOW] DPT=22" =
        some ⟨"[UFW ALLOW] DPT=22", "ALLOW", none, none, none, none, none, some 22,
          none, none, "[UFW ALLOW] DPT=22"⟩ := by decide
    have h2 := (parse_timestamp svc0 _ _ h).1 (by decide)
    rw [h]
    exact congrArg some h2

/-! ## Claim C8: first occurrence of a duplicated key wins -/

theorem findSome?_eq_find?_bind {α β : Type} (f : α → Option β) (l : List α) :
    l.findSome? f = (l.find? fun x => (f x).isSome).bind f := by
  induction l with
  | nil => rfl
  | cons x xs ih =>
    rw [List.findSome?_cons, List.find?_cons]
    cases hfx : f x with
    | some b => simp [hfx]
    | none => simp [hfx, ih]

/-- Spec-side reading of the field extraction (§4.1): among the
whitespace-delimited `KEY=VALUE` tokens, the *first* one whose key equals
`key` provides the value (trimmed of `,`/`]`); later duplicates are
ignored. -/
def firstField (line key : String) : Option String :=
  ((splitWs line.data).find? fun tok =>
    match splitOnceChar '=' tok with
    | some (k, _) => decide (k = key.data)
    | none => false).map fun tok =>
      (⟨trimCB (((splitOnceChar '=' tok).map Prod.snd).getD [])⟩ : String)

theorem parse_field_eq_firstField (line key : String) :
    parse_field line key = firstField line key := by
  unfold parse_field firstField
  rw [findSome?_eq_find?_bind]
  have hpred : (fun tok => (Option.isSome (match splitOnceChar '=' tok with
      | some (k, v) => if k = key.data then some (⟨trimCB v⟩ : String) else none
      | none => none))) = (fun tok =>
      match splitOnceChar '=' tok with
      | some (k, _) => decide (k = key.data)
      | none => false) := by
    funext tok
    cases hs : splitOnceChar '=' tok with
    | none => simp [hs]
    | some kv =>
      obtain ⟨k, v⟩ := kv
      by_cases hk : k = key.data
      · simp [hs, hk]
      · simp [hs, hk]
  rw [hpred]
  cases hfind : (splitWs line.data).find? (fun tok =>
      match splitOnceChar '=' tok with
      | some (k, _) => decide (k = key.data)
      | none => false) with
  | none => rfl
  | some tok =>
    have hp := List.find?_some hfind
    rw [Option.some_bind, Option.map_some']
    cases hs : splitOnceChar '=' tok with
    | none => rw [hs] at hp; exact Bool.noConfusion hp
    | some kv =>
      obtain ⟨k, v⟩ := kv
      rw [hs] at hp
      have hk : k = key.data := of_decide_eq_true (by simpa using hp)
      simp [hs, hk]

/-- C8: `parse` takes the first occurrence of each of the seven keys: every
field of a parsed entry equals the `firstField` (first-matching-token)
extraction, with the source's post-processing (uppercasing for `PROTO`,
`u16` parsing for `SPT`/`DPT`). -/
theorem parse_first_occurrence (svc : Nat → Option String) (line : String)
    (e : LogEntry) (h : parse_ufw_line svc line = some e) :
    e.in_iface = firstField line "IN" ∧
    e.out_iface = firstField line "OUT" ∧
    e.src_ip = firstField line "SRC" ∧
    e.dst_ip = firstField line "DST" ∧
    e.proto = (firstField line "PROTO").map asciiUpper ∧
    e.src_port = (firstField line "SPT").bind (parseUInt 65535) ∧
    e.dst_port = (firstField line "DPT").bind (parseUInt 65535) := by
  unfold parse_ufw_line at h
  cases ha : parse_action line with
  | none => rw [ha] at h; exact Option.noConfusion h
  | some act =>
    rw [ha] at h
    simp only [Option.some.injEq] at h
    rw [← h]
    refine ⟨?_, ?_, ?_, ?_, ?_, ?_, ?_⟩ <;>
      simp only [parse_field_eq_firstField]

/-- Witness for `parse_first_occurrence`: a line with duplicated `IN` and
`SRC` keys; the parsed entry carries the first values (`eth0`,
`1.1.1.1`). -/
theorem parse_first_occurrence_witness :
    (parse_ufw_line svc0 "h kernel: [UFW A] IN=eth0 IN=eth1 SRC=1.1.1.1 SRC=2.2.2.2" =
      some ⟨"h", "A", some "eth0", none, some "1.1.1.1", none, none, none, none,
        none, "h kernel: [UFW A] IN=eth0 IN=eth1 SRC=1.1.1.1 SRC=2.2.2.2"⟩) ∧
    (some "eth0" : Option String) =
      firstField "h kernel: [UFW A] IN=eth0 IN=eth1 SRC=1.1.1.1 SRC=2.2.2.2" "IN" ∧
    (some "1.1.1.1" : Option String) =
      firstField "h kernel: [UFW A] IN=eth0 IN=eth1 SRC=1.1.1.1 SRC=2.2.2.2" "SRC" := by
  have h : parse_ufw_line svc0
      "h kernel: [UFW A] IN=eth0 IN=eth1 SRC=1.1.1.1 SRC=2.2.2.2" =
      some ⟨"h", "A", some "eth0", none, some "1.1.1.1", none, none, none, none,
        none, "h kernel: [UFW A] IN=eth0 IN=eth1 SRC=1.1.1.1 SRC=2.2.2.2"⟩ := by
    decide
  have hall := parse_first_occurrence svc0 _ _ h
  exact ⟨h, hall.1, hall.2.2.1⟩

/-! ## Claim C3: reload selection stability -/

theorem sync_selected (b : App) (n : Nat) :
    (b.sync_selection_with_len n).selected = if n = 0 then 0 else min b.selected (n - 1) := by
  unfold App.sync_selection_with_len
  split <;> rfl

theorem sync_filtered (b : App) (n : Nat) :
    (b.sync_selection_with_len n).filtered_indices = b.filtered_indices := by
  unfold App.sync_selection_with_len
  split <;> rfl

theorem sync_entries (b : App) (n : Nat) :
    (b.sync_selection_with_len n).entries = b.entries := by
  unfold App.sync_selection_with_len
  split <;> rfl

theorem refresh_filterState (a : App) (newEntries : List LogEntry)
    (hIface : chooseIface (computeOptions newEntries) a.selected_interface =
      a.selected_interface) :
    (App.refresh_interface_options { a with entries := newEntries }
      a.selected_interface).filterState = a.filterState := by
  show (⟨chooseIface (computeOptions newEntries) a.selected_interface, a.filters,
    a.show_local_src, a.show_wan_src, a.flow_filter, a.direction_filter⟩ : FilterState) =
    a.filterState
  rw [hIface]
  rfl

theorem refresh_filtered (a : App) (newEntries : List LogEntry)
    (hIface : chooseIface (computeOptions newEntries) a.selected_interface =
      a.selected_interface) :
    (App.refresh_interface_options { a with entries := newEntries }
      a.selected_interface).filtered_indices = visible_indices newEntries a.filterState := by
  show visible_indices newEntries
    (App.refresh_interface_options { a with entries := newEntries }
      a.selected_interface).filterState = visible_indices newEntries a.filterState
  rw [refresh_filterState a newEntries hIface]

theorem reload_ok_filtered (a : App) (newEntries : List LogEntry)
    (fp : Option FileFingerprint)
    (hIface : chooseIface (computeOptions newEntries) a.selected_interface =
      a.selected_interface) :
    (a.reload (.ok newEntries) fp).filtered_indices =
      visible_indices newEntries a.filterState := by
  show (App.sync_selection_with_len _ _).filtered_indices = _
  rw [sync_filtered]
  exact refresh_filtered a newEntries hIface

theorem reload_ok_entries (a : App) (newEntries : List LogEntry)
    (fp : Option FileFingerprint) :
    (a.reload (.ok newEntries) fp).entries = newEntries := by
  show (App.sync_selection_with_len _ _).entries = _
  rw [sync_entries]
  rfl

theorem current_selected_raw_formula (x : App) :
    x.current_selected_raw =
      if x.filtered_indices.isEmpty then none
      else (x.filtered_indices.get? (min x.selected (x.filtered_indices.length - 1))).bind
        fun i => (x.entries.get? i).map LogEntry.raw := rfl

theorem reload_ok_selected (a : App) (newEntries : List LogEntry)
    (fp : Option FileFingerprint) (r : String)
    (hIface : chooseIface (computeOptions newEntries) a.selected_interface =
      a.selected_interface)
    (hraw : a.current_selected_raw = some r) :
    (a.reload (.ok newEntries) fp).selected =
      (if (visible_indices newEntries a.filterState).length = 0 then 0
       else min
        (((visible_indices newEntries a.filterState).findIdx? fun i =>
            (newEntries.get? i).map LogEntry.raw == some r).getD
          (min a.selected ((visible_indices newEntries a.filterState).length - 1)))
        ((visible_indices newEntries a.filterState).length - 1)) := by
  show (App.sync_selection_with_len
    { App.refresh_interface_options { a with entries := newEntries }
        a.selected_interface with
      selected :=
        (match a.current_selected_raw with
         | some raw =>
           (selected_position_for_raw
              (App.refresh_interface_options { a with entries := newEntries }
                a.selected_interface).entries
              (App.refresh_interface_options { a with entries := newEntries }
                a.selected_interface).filtered_indices raw).getD
             (min a.selected
               ((App.refresh_interface_options { a with entries := newEntries }
                  a.selected_interface).filtered_indices.length - 1))
         | none =>
           min a.selected
             ((App.refresh_interface_options { a with entries := newEntries }
                a.selected_interface).filtered_indices.length - 1)) }
    (App.refresh_interface_options { a with entries := newEntries }
      a.selected_interface).filtered_indices.length).selected = _
  rw [sync_selected, hraw]
  rw [refresh_filtered a newEntries hIface]
  rfl

/-- C3: with unchanged filter state across a reload, a selected entry whose
raw text occurs (uniquely) in the new visible sequence is selected again at
its new position, wherever that is; and when the captured raw text is not
found in the new visible sequence, the previous numeric position is clamped
to the new visible-sequence length. -/
theorem reload_selection_stability (a : App) (newEntries : List LogEntry)
    (fp : Option FileFingerprint) (r : String)
    (hIface : chooseIface (computeOptions newEntries) a.selected_interface =
      a.selected_interface)
    (hraw : a.current_selected_raw = some r) :
    ((∃ i ∈ visible_indices newEntries a.filterState,
        (newEntries.get? i).map LogEntry.raw = some r) →
      (∀ i ∈ visible_indices newEntries a.filterState,
        ∀ i' ∈ visible_indices newEntries a.filterState,
          (newEntries.get? i).map LogEntry.raw = some r →
          (newEntries.get? i').map LogEntry.raw = some r → i = i') →
      ((a.reload (.ok newEntries) fp).current_selected_raw = some r ∧
       ∀ i ∈ visible_indices newEntries a.filterState,
         (newEntries.get? i).map LogEntry.raw = some r →
         (visible_indices newEntries a.filterState).get?
           (a.reload (.ok newEntries) fp).selected = some i)) ∧
    ((∀ i ∈ visible_indices newEntries a.filterState,
        (newEntries.get? i).map LogEntry.raw ≠ some r) →
      (a.reload (.ok newEntries) fp).selected =
        min a.selected ((visible_indices newEntries a.filterState).length - 1)) := by
  constructor
  · intro hfound huniq
    obtain ⟨i0, hi0mem, hi0raw⟩ := hfound
    have hexists : ∃ x, x ∈ visible_indices newEntries a.filterState ∧
        ((fun i => (newEntries.get? i).map LogEntry.raw == some r) x) = true := by
      exact ⟨i0, hi0mem, by rw [beq_iff_eq]; exact hi0raw⟩
    have hfind := List.findIdx?_eq_some_of_exists hexists
    set F := visible_indices newEntries a.filterState with hFdef
    set j := F.findIdx fun i => (newEntries.get? i).map LogEntry.raw == some r with hjdef
    have hj := List.findIdx?_eq_some_iff_getElem.mp hfind
    obtain ⟨hjlt, hjpred, _⟩ := hj
    have hlen0 : ¬ F.length = 0 := by omega
    have hsel : (a.reload (.ok newEntries) fp).selected = j := by
      rw [reload_ok_selected a newEntries fp r hIface hraw, if_neg hlen0, ← hFdef, hfind]
      show min j (F.length - 1) = j
      omega
    have hrawj : (newEntries.get? F[j]).map LogEntry.raw = some r := by
      rw [← beq_iff_eq]
      exact hjpred
    constructor
    · rw [current_selected_raw_formula]
      rw [reload_ok_filtered a newEntries fp hIface,
        reload_ok_entries a newEntries fp, hsel, ← hFdef]
      have hFne : F.isEmpty = false := by
        cases hc : F with
        | nil => rw [hc] at hjlt; simp at hjlt
        | cons x xs => rfl
      rw [hFne]
      simp only [Bool.false_eq_true, if_false]
      have hminj : min j (F.length - 1) = j := by omega
      rw [hminj]
      have hgj : F.get? j = some F[j] := by
        rw [List.get?_eq_getElem?]
        exact List.getElem?_eq_getElem hjlt
      rw [hgj]
      simpa using hrawj
    · intro i himem hiraw
      have hji : F[j] = i := by
        apply huniq F[j] (List.getElem_mem hjlt) i himem hrawj hiraw
      rw [hsel, ← hji]
      rw [List.get?_eq_getElem?]
      exact List.getElem?_eq_getElem hjlt
  · intro hnone
    have hfindnone : (visible_indices newEntries a.filterState).findIdx?
        (fun i => (newEntries.get? i).map LogEntry.raw == some r) = none := by
      rw [List.findIdx?_eq_none_iff]
      intro x hx
      have := hnone x hx
      simp only [beq_eq_false_iff_ne, ne_eq]
      exact this
    rw [reload_ok_selected a newEntries fp r hIface hraw, hfindnone]
    by_cases h0 : (visible_indices newEntries a.filterState).length = 0
    · rw [if_pos h0, h0]
      simp
    · rw [if_neg h0]
      show min (min a.selected _) _ = _
      omega

/-- Minimal entry used by concrete scenarios: only the raw text varies. -/
def entryR (rw : String) : LogEntry :=
  ⟨"", "A", none, none, none, none, none, none, none, none, rw⟩

/-- Concrete application state used by concrete scenarios: three visible
entries, position 1 (raw `"r2"`) selected, no interface filter. -/
def appW : App :=
  ⟨"/var/log/ufw.log", [entryR "r1", entryR "r2", entryR "r3"], [], none,
    Filters.default, true, true, .All, .Both, false, 1, 0, some 1, none, ""⟩

/-- Witness for `reload_selection_stability`: after a reload that moves
`"r2"` to visible position 0 it is selected again; after a reload that
drops `"r2"` the old position 1 is clamped. -/
theorem reload_selection_stability_witness :
    (appW.reload (.ok [entryR "r2", entryR "r3"]) none).current_selected_raw =
      some "r2" ∧
    (appW.reload (.ok [entryR "r3"]) none).selected =
      min 1 ((visible_indices [entryR "r3"] appW.filterState).length - 1) :=
  ⟨((reload_selection_stability appW [entryR "r2", entryR "r3"] none "r2"
      (by decide) (by decide)).1 ⟨0, by decide, by decide⟩ (by decide)).1,
   (reload_selection_stability appW [entryR "r3"] none "r2"
      (by decide) (by decide)).2 (by decide)⟩

/-! ## Claim C10: the selection invariant -/

/-- The state-changing operations of the core (§6 command list as
implemented in `src/main.rs`). -/
inductive Op where
  | reloadOp (result : Except String (List LogEntry)) (fp : Option FileFingerprint)
  | setFilter (field : FilterField) (value : String)
  | clearFilterOp (field : FilterField)
  | clearFiltersOp
  | toggleLocal
  | toggleWan
  | cycleFlow
  | cycleDirection
  | selectAllIfaces
  | selectDefaultWan
  | selectNamedIface (name : String)
  | cycleIface (forward : Bool)
  | moveUp
  | moveDown

/-- Dispatch of `Op` to the corresponding `App` method. -/
def applyOp : Op → App → App
  | .reloadOp result fp, a => a.reload result fp
  | .setFilter field value, a => a.set_filter_value field value
  | .clearFilterOp field, a => a.clear_filter field
  | .clearFiltersOp, a => a.clear_filters
  | .toggleLocal, a => a.toggle_show_local_src
  | .toggleWan, a => a.toggle_show_wan_src
  | .cycleFlow, a => a.cycle_flow_filter
  | .cycleDirection, a => a.cycle_direction_filter
  | .selectAllIfaces, a => a.select_all_interfaces
  | .selectDefaultWan, a => a.select_default_wan_interface
  | .selectNamedIface name, a => a.select_named_interface name
  | .cycleIface forward, a => a.cycle_interface forward
  | .moveUp, a => a.move_selection_up
  | .moveDown, a => a.move_selection_down

/-- The selection invariant: strictly below the visible length when
something is visible, and exactly zero when nothing is. -/
def SelInv (a : App) : Prop :=
  (a.filtered_indices.length = 0 → a.selected = 0) ∧
  (0 < a.filtered_indices.length → a.selected < a.filtered_indices.length)

instance (a : App) : Decidable (SelInv a) := by
  unfold SelInv
  infer_instance

theorem selInv_of_selected_zero (a : App) (h : a.selected = 0) : SelInv a :=
  ⟨fun _ => h, fun hl => h ▸ hl⟩

theorem selInv_sync (b : App) : SelInv (b.sync_selection_with_len b.filtered_indices.length) := by
  have hf := sync_filtered b b.filtered_indices.length
  have hs := sync_selected b b.filtered_indices.length
  constructor
  · intro h0
    rw [hf] at h0
    rw [hs, if_pos h0]
  · intro hpos
    rw [hf] at hpos
    rw [hf, hs, if_neg (by omega)]
    omega

theorem selInv_of_le (a b : App) (hsel : b.selected = a.selected)
    (hlen : a.filtered_indices.length ≤ b.filtered_indices.length)
    (h : SelInv a) : SelInv b := by
  by_cases h0 : a.filtered_indices.length = 0
  · have hsel0 : a.selected = 0 := h.1 h0
    exact selInv_of_selected_zero b (hsel.trans hsel0)
  · have hlt := h.2 (by omega)
    exact ⟨fun hb0 => by omega, fun _ => by omega⟩

theorem entryPasses_drop_iface (fs : FilterState) (i : String) (e : LogEntry)
    (h : entryPasses { fs with selected_interface := some i } e = true) :
    entryPasses { fs with selected_interface := none } e = true := by
  unfold entryPasses at h ⊢
  simp only [Bool.and_eq_true] at h ⊢
  exact ⟨⟨⟨⟨⟨trivial, h.1.1.1.1.2⟩, h.1.1.1.2⟩, h.1.1.2⟩, h.1.2⟩, h.2⟩

/-- C10: every state-changing operation preserves the selection
invariant. -/
theorem selection_invariant_preserved (a : App) (op : Op) (h : SelInv a) :
    SelInv (applyOp op a) := by
  cases op with
  | reloadOp result fp =>
    cases result with
    | ok entries =>
      show SelInv { App.sync_selection_with_len _ _ with
        last_fingerprint := fp, status := "" }
      have := selInv_sync { App.refresh_interface_options
        { a with entries := entries } a.selected_interface with
        selected :=
          (match a.current_selected_raw with
           | some raw =>
             (selected_position_for_raw
                (App.refresh_interface_options { a with entries := entries }
                  a.selected_interface).entries
                (App.refresh_interface_options { a with entries := entries }
                  a.selected_interface).filtered_indices raw).getD
               (min a.selected
                 ((App.refresh_interface_options { a with entries := entries }
                    a.selected_interface).filtered_indices.length - 1))
           | none =>
             min a.selected
               ((App.refresh_interface_options { a with entries := entries }
                  a.selected_interface).filtered_indices.length - 1)) }
      exact ⟨this.1, this.2⟩
    | error err => exact selInv_of_selected_zero _ rfl
  | setFilter field value => exact selInv_of_selected_zero _ rfl
  | clearFilterOp field => exact selInv_of_selected_zero _ rfl
  | clearFiltersOp => exact selInv_of_selected_zero _ rfl
  | toggleLocal => exact selInv_of_selected_zero _ rfl
  | toggleWan => exact selInv_of_selected_zero _ rfl
  | cycleFlow => exact selInv_of_selected_zero _ rfl
  | cycleDirection => exact selInv_of_selected_zero _ rfl
  | selectAllIfaces => exact selInv_of_selected_zero _ rfl
  | selectDefaultWan => exact selInv_of_selected_zero _ rfl
  | selectNamedIface name => exact selInv_of_selected_zero _ rfl
  | cycleIface forward =>
    show SelInv (a.cycle_interface forward)
    unfold App.cycle_interface
    by_cases hempty : a.interface_options.isEmpty = true
    · rw [if_pos hempty]
      cases hsel : a.selected_interface with
      | none =>
        refine selInv_of_le a _ ?_ ?_ h
        · rfl
        apply Nat.le_of_eq
        show (visible_indices a.entries a.filterState).length =
          (visible_indices a.entries ⟨none, a.filters, a.show_local_src,
            a.show_wan_src, a.flow_filter, a.direction_filter⟩).length
        rw [show (⟨none, a.filters, a.show_local_src, a.show_wan_src, a.flow_filter,
          a.direction_filter⟩ : FilterState) = a.filterState from by rw [← hsel]; rfl]
      | some i =>
        refine selInv_of_le a _ ?_ ?_ h
        · rfl
        show (visible_indices a.entries a.filterState).length ≤
          (visible_indices a.entries ⟨none, a.filters, a.show_local_src,
            a.show_wan_src, a.flow_filter, a.direction_filter⟩).length
        rw [show a.filterState = ⟨some i, a.filters, a.show_local_src, a.show_wan_src,
          a.flow_filter, a.direction_filter⟩ from by rw [← hsel]; rfl]
        exact visible_indices_le_of_imp a.entries
          (fun e he => entryPasses_drop_iface
            ⟨none, a.filters, a.show_local_src, a.show_wan_src, a.flow_filter,
              a.direction_filter⟩ i e he)
    · rw [if_neg hempty]
      exact selInv_of_selected_zero _ rfl
  | moveUp =>
    show SelInv a.move_selection_up
    unfold App.move_selection_up
    by_cases hpos : 0 < a.filtered_indices.length
    · rw [if_pos hpos]
      exact selInv_sync { a with selected := a.selected - 1 }
    · rw [if_neg hpos]
      exact h
  | moveDown =>
    show SelInv a.move_selection_down
    unfold App.move_selection_down
    by_cases hpos : 0 < a.filtered_indices.length
    · rw [if_pos hpos]
      exact selInv_sync { a with selected := min (a.selected + 1) (a.filtered_indices.length - 1) }
    · rw [if_neg hpos]
      exact h

/-- Witness for `selection_invariant_preserved`: moving the selection down
in the concrete three-entry state. -/
theorem selection_invariant_preserved_witness :
    SelInv (applyOp .moveDown appW) :=
  selection_invariant_preserved appW .moveDown (by decide)

end Ufw
